import Mathlib

/-!
Shallow embedding of the scheduler VolumeRestrictions plugin
(pkg/scheduler/framework/plugins/volumerestrictions/volume_restrictions.go).

Go pointers to optional sub-structs become `Option`; `sets.Set[string]`
becomes `Finset String`; the Go `int` counter becomes `Int` (it can go
negative under a bare decrement); fallible lookups return `Except`.
External collaborators (the PVC lister and the cluster snapshot's
`IsPVCUsedByPods` index) are passed in as functions.
-/

namespace VolumeRestrictions

/-- v1.PersistentVolumeClaimAccessMode (only the constructors this plugin inspects). -/
inductive AccessMode where
  | readWriteOnce
  | readOnlyMany
  | readWriteMany
  | readWriteOncePod
deriving DecidableEq, Repr

/-- v1.PersistentVolumeClaim: the fields the plugin reads (metadata name,
metadata namespace, spec.accessModes). -/
structure PersistentVolumeClaim where
  name : String
  ns : String
  accessModes : List AccessMode
deriving DecidableEq, Repr

/-- v1.GCEPersistentDiskVolumeSource: the fields `isVolumeConflict` reads. -/
structure GCEPersistentDiskVolumeSource where
  pdName : String
  readOnly : Bool
deriving DecidableEq, Repr

/-- v1.AWSElasticBlockStoreVolumeSource: the fields `isVolumeConflict` reads. -/
structure AWSElasticBlockStoreVolumeSource where
  volumeID : String
deriving DecidableEq, Repr

/-- v1.ISCSIVolumeSource: the fields `isVolumeConflict` reads. -/
structure ISCSIVolumeSource where
  iqn : String
  readOnly : Bool
deriving DecidableEq, Repr

/-- v1.RBDVolumeSource: the fields `isVolumeConflict` reads. -/
structure RBDVolumeSource where
  cephMonitors : List String
  rbdPool : String
  rbdImage : String
  readOnly : Bool
deriving DecidableEq, Repr

/-- v1.PersistentVolumeClaimVolumeSource. -/
structure PersistentVolumeClaimVolumeSource where
  claimName : String
deriving DecidableEq, Repr

/-- v1.Volume: nullable backend sub-structs, as in the Go struct. -/
structure Volume where
  gcePersistentDisk : Option GCEPersistentDiskVolumeSource
  awsElasticBlockStore : Option AWSElasticBlockStoreVolumeSource
  iscsi : Option ISCSIVolumeSource
  rbd : Option RBDVolumeSource
  persistentVolumeClaim : Option PersistentVolumeClaimVolumeSource
deriving DecidableEq, Repr

/-- v1.PodSpec: the field the plugin reads. -/
structure PodSpec where
  volumes : List Volume
deriving DecidableEq, Repr

/-- v1.Pod: metadata name/namespace and the spec. -/
structure Pod where
  name : String
  ns : String
  spec : PodSpec
deriving DecidableEq, Repr

/-- framework.PodInfo: wraps the pod (only `.Pod` is read by this plugin). -/
structure PodInfo where
  pod : Pod
deriving DecidableEq, Repr

/-- framework.NodeInfo: the pods resident on the node. -/
structure NodeInfo where
  pods : List PodInfo
deriving DecidableEq, Repr

/-- framework.NewNodeInfo(deletedPod): a synthetic node holding a single pod. -/
def NewNodeInfo (p : Pod) : NodeInfo :=
  { pods := [⟨p⟩] }

/-- preFilterStateKey constant. -/
def preFilterStateKey : String := "PreFilterVolumeRestrictions"

/-- ErrReasonDiskConflict constant. -/
def ErrReasonDiskConflict : String := "node(s) had no available disk"

/-- ErrReasonReadWriteOncePodConflict constant. -/
def ErrReasonReadWriteOncePodConflict : String :=
  "node has pod using PersistentVolumeClaim with the same name and ReadWriteOncePod access mode"

/-- framework.Status collapsed to the outcomes this plugin produces:
nil status (success), Unschedulable(reason), UnschedulableAndUnresolvable(reason),
Skip, and AsStatus(err) (an error status). -/
inductive Status where
  | success
  | unschedulable (reason : String)
  | unschedulableAndUnresolvable (reason : String)
  | skip
  | error (msg : String)
deriving DecidableEq, Repr

/-- preFilterState: the per-attempt cache entry. The Go counter is an `int`
and `updateWithPod` may drive it negative, so it is `Int` here. -/
structure preFilterState where
  readWriteOncePodPVCs : Finset String
  conflictingPVCRefCount : Int
deriving DecidableEq

/-- The count of a pod's volumes whose claim reference names a claim in the
given set (the loop body of `conflictingPVCRefCountForPod`, factored on the
set so the heap model below can reuse it). -/
def pvcRefCountForPod (pvcs : Finset String) (podInfo : PodInfo) : Nat :=
  podInfo.pod.spec.volumes.countP fun volume =>
    match volume.persistentVolumeClaim with
    | none => false
    | some pvc => decide (pvc.claimName ∈ pvcs)

/-- Method conflictingPVCRefCountForPod of the preFilterState struct. -/
def conflictingPVCRefCountForPod (s : preFilterState) (podInfo : PodInfo) : Nat :=
  pvcRefCountForPod s.readWriteOncePodPVCs podInfo

/-- Method updateWithPod: adds `multiplier * conflictingPVCRefCountForPod`. -/
def updateWithPod (s : preFilterState) (podInfo : PodInfo) (multiplier : Int) : preFilterState :=
  { s with conflictingPVCRefCount :=
      s.conflictingPVCRefCount + multiplier * (conflictingPVCRefCountForPod s podInfo : Int) }

/-- AddPod hook: updateWithPod with multiplier +1. -/
def AddPod (s : preFilterState) (podInfoToAdd : PodInfo) : preFilterState :=
  updateWithPod s podInfoToAdd 1

/-- RemovePod hook: updateWithPod with multiplier -1. -/
def RemovePod (s : preFilterState) (podInfoToRemove : PodInfo) : preFilterState :=
  updateWithPod s podInfoToRemove (-1)

/-- One speculative step during preemption simulation. -/
inductive SimOp where
  | add (p : PodInfo)
  | remove (p : PodInfo)

/-- Apply one AddPod/RemovePod step to a cache entry. -/
def applySimOp (s : preFilterState) : SimOp → preFilterState
  | .add p => AddPod s p
  | .remove p => RemovePod s p

/-- Apply a sequence of AddPod/RemovePod steps. -/
def applySimOps (s : preFilterState) (ops : List SimOp) : preFilterState :=
  ops.foldl applySimOp s

/-- isVolumeConflict's loop body: does `volume` conflict with one existing
volume, under the GCE-PD rule. -/
def gcePairConflict (volume existingVolume : Volume) : Bool :=
  match volume.gcePersistentDisk, existingVolume.gcePersistentDisk with
  | some disk, some existingDisk =>
      disk.pdName == existingDisk.pdName && !(disk.readOnly && existingDisk.readOnly)
  | _, _ => false

/-- isVolumeConflict's loop body: the AWS EBS rule (read-only gives no exception). -/
def awsPairConflict (volume existingVolume : Volume) : Bool :=
  match volume.awsElasticBlockStore, existingVolume.awsElasticBlockStore with
  | some v, some ev => v.volumeID == ev.volumeID
  | _, _ => false

/-- isVolumeConflict's loop body: the ISCSI rule. -/
def iscsiPairConflict (volume existingVolume : Volume) : Bool :=
  match volume.iscsi, existingVolume.iscsi with
  | some v, some ev => v.iqn == ev.iqn && !(v.readOnly && ev.readOnly)
  | _, _ => false

/-- haveOverlap: builds a set from the shorter list and probes with the longer. -/
def haveOverlap (a1 a2 : List String) : Bool :=
  if a1.length > a2.length then
    a1.any fun val => a2.contains val
  else
    a2.any fun val => a1.contains val

/-- isVolumeConflict's loop body: the RBD rule (monitor overlap, same pool,
same image, not both read-only). -/
def rbdPairConflict (volume existingVolume : Volume) : Bool :=
  match volume.rbd, existingVolume.rbd with
  | some v, some ev =>
      haveOverlap v.cephMonitors ev.cephMonitors && v.rbdPool == ev.rbdPool &&
        v.rbdImage == ev.rbdImage && !(v.readOnly && ev.readOnly)
  | _, _ => false

/-- The body of isVolumeConflict's loop over the existing pod's volumes:
true when any of the four per-kind rules fires. -/
def volumePairConflict (volume existingVolume : Volume) : Bool :=
  gcePairConflict volume existingVolume || awsPairConflict volume existingVolume ||
    iscsiPairConflict volume existingVolume || rbdPairConflict volume existingVolume

/-- isVolumeConflict(volume, pod): scans the existing pod's volumes and
reports a conflict when any per-kind rule fires. -/
def isVolumeConflict (volume : Volume) (pod : Pod) : Bool :=
  pod.spec.volumes.any fun existingVolume => volumePairConflict volume existingVolume

/-- needsRestrictionsCheck: the volume is one of the four conflict-relevant kinds. -/
def needsRestrictionsCheck (v : Volume) : Bool :=
  v.gcePersistentDisk.isSome || v.awsElasticBlockStore.isSome || v.rbd.isSome || v.iscsi.isSome

/-- satisfyVolumeConflicts(pod, nodeInfo): no conflict-relevant volume of the
pod conflicts with any pod resident on the node (`continue` for irrelevant
volumes becomes a disjunct). -/
def satisfyVolumeConflicts (pod : Pod) (nodeInfo : NodeInfo) : Bool :=
  pod.spec.volumes.all fun v =>
    !needsRestrictionsCheck v || nodeInfo.pods.all fun ev => !isVolumeConflict v ev.pod

/-- v1helper.ContainsAccessMode. -/
def containsAccessMode (modes : List AccessMode) (mode : AccessMode) : Bool :=
  modes.any fun m => m == mode

/-- The outcome of one PVC lister point read
(`pvcLister.PersistentVolumeClaims(ns).Get(name)`). -/
inductive ClaimLookupResult where
  | found (claim : PersistentVolumeClaim)
  | notFound
  | failure (msg : String)
deriving DecidableEq, Repr

/-- The PVC lister collaborator: namespace and name to a lookup outcome. -/
abbrev ClaimStore := String → String → ClaimLookupResult

/-- An error escaping a claim lookup: apierrors.IsNotFound distinguishes
`notFound` from any other lookup failure. -/
inductive ClaimError where
  | notFound (ns name : String)
  | failure (msg : String)
deriving DecidableEq, Repr

/-- The message carried by a claim lookup error (err.Error()). -/
def ClaimError.message : ClaimError → String
  | .notFound _ name => "persistentvolumeclaim " ++ name ++ " not found"
  | .failure msg => msg

/-- The loop of readWriteOncePodPVCsForPod over the pod's volumes, carrying
the accumulated set: skips non-claim volumes; on a lookup error, returns it
unless it is not-found and `ignoreNotFoundError` is set; inserts the claim's
name when its access modes contain ReadWriteOncePod. -/
def rwopPVCsAux (store : ClaimStore) (ns : String) (ignoreNotFoundError : Bool) :
    List Volume → Finset String → Except ClaimError (Finset String)
  | [], pvcs => .ok pvcs
  | volume :: rest, pvcs =>
    match volume.persistentVolumeClaim with
    | none => rwopPVCsAux store ns ignoreNotFoundError rest pvcs
    | some ref =>
      match store ns ref.claimName with
      | .notFound =>
          if ignoreNotFoundError then rwopPVCsAux store ns ignoreNotFoundError rest pvcs
          else .error (.notFound ns ref.claimName)
      | .failure msg => .error (.failure msg)
      | .found pvc =>
          if containsAccessMode pvc.accessModes .readWriteOncePod then
            rwopPVCsAux store ns ignoreNotFoundError rest (insert pvc.name pvcs)
          else
            rwopPVCsAux store ns ignoreNotFoundError rest pvcs

/-- readWriteOncePodPVCsForPod(pod, ignoreNotFoundError): the names of the
pod's ReadWriteOncePod PVCs, resolved through the lister. -/
def readWriteOncePodPVCsForPod (store : ClaimStore) (pod : Pod)
    (ignoreNotFoundError : Bool) : Except ClaimError (Finset String) :=
  rwopPVCsAux store pod.ns ignoreNotFoundError pod.spec.volumes ∅

/-- framework.GetNamespacedName. -/
def GetNamespacedName (ns name : String) : String := ns ++ "/" ++ name

/-- The cluster snapshot's StorageInfos().IsPVCUsedByPods index, keyed by
the namespaced claim name. -/
abbrev UsageIndex := String → Bool

/-- calPreFilterState(pod, pvcs): counts the claims of the set already used
by some scheduled pod, per the cluster-wide index (the Go version returns a
nil error on every path, so no error channel is modelled). -/
def calPreFilterState (index : UsageIndex) (pod : Pod) (pvcs : Finset String) :
    preFilterState :=
  { readWriteOncePodPVCs := pvcs
    conflictingPVCRefCount :=
      ((pvcs.filter fun pvc => index (GetNamespacedName pod.ns pvc) = true).card : Int) }

/-- PreFilter's result: the cycle state written (if any) together with the
returned status (Skip writes nothing). -/
def PreFilter (store : ClaimStore) (index : UsageIndex) (pod : Pod) :
    Option preFilterState × Status :=
  let needsCheck := pod.spec.volumes.any needsRestrictionsCheck
  match readWriteOncePodPVCsForPod store pod false with
  | .error e =>
    match e with
    | .notFound ns name => (none, .unschedulableAndUnresolvable (ClaimError.message (.notFound ns name)))
    | .failure msg => (none, .error msg)
  | .ok pvcs =>
    let s := calPreFilterState index pod pvcs
    if !needsCheck && s.conflictingPVCRefCount == 0 then (none, .skip)
    else (some s, .success)

/-- The per-attempt keyed store, restricted to this plugin's slot: `none`
when no entry was written (CycleState.Read fails), `some p` when the slot
holds a (possibly nil) *preFilterState pointer `p`. -/
abbrev CycleState := Option (Option preFilterState)

/-- getPreFilterState: reading an absent slot is an error; a present slot is
type-asserted (the stored pointer may be nil). -/
def getPreFilterState (cs : CycleState) : Except String (Option preFilterState) :=
  match cs with
  | none => .error ("cannot read " ++ preFilterStateKey ++ " from cycleState")
  | some s => .ok s

/-- satisfyReadWriteOncePod: a nil state passes; a positive counter rejects
with the ReadWriteOncePod conflict reason. -/
def satisfyReadWriteOncePod (state : Option preFilterState) : Status :=
  match state with
  | none => .success
  | some s =>
      if s.conflictingPVCRefCount > 0 then .unschedulable ErrReasonReadWriteOncePodConflict
      else .success

/-- Filter: volume-conflict check first (disk-conflict reason), then the
ReadWriteOncePod check from the cycle state (an unreadable state is an
error status). -/
def Filter (cs : CycleState) (pod : Pod) (nodeInfo : NodeInfo) : Status :=
  if !satisfyVolumeConflicts pod nodeInfo then .unschedulable ErrReasonDiskConflict
  else
    match getPreFilterState cs with
    | .error msg => .error msg
    | .ok state => satisfyReadWriteOncePod state

/-- framework.QueueingHint. -/
inductive QueueingHint where
  | queue
  | queueSkip
deriving DecidableEq, Repr

/-- isSchedulableAfterPodDeleted, after the event payload has been decoded
to the deleted pod (the util.As failure path carries no algorithmic
content): skip for a foreign namespace; strict-resolve the blocked pod's
RWOP claims (not-found means skip, another failure is an error paired with
Queue); best-effort-resolve the deleted pod's RWOP claims; requeue on a
shared claim name; otherwise requeue exactly when the blocked pod conflicts
with the deleted pod's volumes on a synthetic single-pod node. -/
def isSchedulableAfterPodDeleted (store : ClaimStore) (pod deletedPod : Pod) :
    QueueingHint × Option String :=
  if deletedPod.ns != pod.ns then (.queueSkip, none)
  else
    match readWriteOncePodPVCsForPod store pod false with
    | .error (.notFound _ _) => (.queueSkip, none)
    | .error (.failure msg) => (.queue, some msg)
    | .ok newPodPvcs =>
      match readWriteOncePodPVCsForPod store deletedPod true with
      | .error e => (.queue, some (ClaimError.message e))
      | .ok deletedPodPvcs =>
        if decide (∃ pvc ∈ deletedPodPvcs, pvc ∈ newPodPvcs) then (.queue, none)
        else
          if !satisfyVolumeConflicts pod (NewNodeInfo deletedPod) then (.queue, none)
          else (.queueSkip, none)

/-- The loop of isSchedulableAfterPersistentVolumeClaimChange over the pod's
volumes: collects every referenced claim's resolved name, with no
access-mode test; a not-found claim short-circuits the whole predicate to
QueueSkip, another failure to (Queue, error). -/
def collectReferencedPVCs (store : ClaimStore) (ns : String) :
    List Volume → Finset String → Except ClaimError (Finset String)
  | [], pvcs => .ok pvcs
  | volume :: rest, pvcs =>
    match volume.persistentVolumeClaim with
    | none => collectReferencedPVCs store ns rest pvcs
    | some ref =>
      match store ns ref.claimName with
      | .notFound => .error (.notFound ns ref.claimName)
      | .failure msg => .error (.failure msg)
      | .found pvc => collectReferencedPVCs store ns rest (insert pvc.name pvcs)

/-- isSchedulableAfterPersistentVolumeClaimChange, after the event payload
has been decoded to (oldPVC?, newPVC): skip unless the event is a creation
in the pod's namespace; resolve every claim the pod references (not-found
means skip, another failure is an error paired with Queue); requeue exactly
when the created claim's name is among them. -/
def isSchedulableAfterPersistentVolumeClaimChange (store : ClaimStore) (pod : Pod)
    (oldPVC : Option PersistentVolumeClaim) (newPVC : PersistentVolumeClaim) :
    QueueingHint × Option String :=
  if oldPVC.isSome || newPVC.ns != pod.ns then (.queueSkip, none)
  else
    match collectReferencedPVCs store pod.ns pod.spec.volumes ∅ with
    | .error (.notFound _ _) => (.queueSkip, none)
    | .error (.failure msg) => (.queue, some msg)
    | .ok pvcs =>
      if oldPVC == none && decide (newPVC.name ∈ pvcs) then (.queue, none)
      else (.queueSkip, none)

/-!
Heap model of the cache entry's mutable counter. In Go, `Clone` copies the
`conflictingPVCRefCount` field by value into a freshly allocated struct and
shares the immutable `readWriteOncePodPVCs` set by reference; in-place
mutation by `updateWithPod` is modelled as writing the entry's counter cell
in a small heap, so that non-aliasing between an entry and its clone is a
provable fact rather than a vacuity of the functional embedding.
-/

/-- A heap of counter cells: a store of `Int` values and the next fresh id. -/
structure Heap where
  cells : Nat → Int
  nextId : Nat

/-- Read a cell. -/
def Heap.read (h : Heap) (i : Nat) : Int := h.cells i

/-- Overwrite a cell in place. -/
def Heap.write (h : Heap) (i : Nat) (v : Int) : Heap :=
  ⟨fun j => if j = i then v else h.cells j, h.nextId⟩

/-- Allocate a fresh cell holding `v`, returning the new heap and the cell id. -/
def Heap.alloc (h : Heap) (v : Int) : Heap × Nat :=
  (⟨fun j => if j = h.nextId then v else h.cells j, h.nextId + 1⟩, h.nextId)

/-- A *preFilterState pointer: the shared immutable claim-name set and the
id of the cell holding the mutable counter. -/
structure StateRef where
  readWriteOncePodPVCs : Finset String
  cell : Nat

/-- The counter a reference currently holds. -/
def StateRef.count (h : Heap) (r : StateRef) : Int := h.read r.cell

/-- Clone: a new struct sharing the set, with the counter copied by value
into a fresh cell. -/
def Clone (h : Heap) (r : StateRef) : Heap × StateRef :=
  let (h', c) := h.alloc (r.count h)
  (h', ⟨r.readWriteOncePodPVCs, c⟩)

/-- updateWithPod on a reference: mutates the counter cell in place. -/
def updateRefWithPod (h : Heap) (r : StateRef) (podInfo : PodInfo) (multiplier : Int) : Heap :=
  h.write r.cell (r.count h + multiplier * (pvcRefCountForPod r.readWriteOncePodPVCs podInfo : Int))

/-- A reference is valid when its cell was allocated. -/
def StateRef.valid (h : Heap) (r : StateRef) : Prop := r.cell < h.nextId

/-!
Spec-side description of the Conflict Matcher, for the refinement claim
about the per-kind rules: a closed tagged union over the four
conflict-relevant backend kinds plus an inert kind, with one rule per kind
as the specification words them.
-/

/-- A volume descriptor as the spec describes it: exactly one backend kind. -/
inductive VolumeKindDesc where
  | gce (pdName : String) (readOnly : Bool)
  | aws (volumeID : String)
  | iscsi (iqn : String) (readOnly : Bool)
  | rbd (monitors : List String) (pool image : String) (readOnly : Bool)
  | inert
deriving DecidableEq, Repr

/-- The single-kind volume a descriptor denotes. -/
def VolumeKindDesc.toVolume : VolumeKindDesc → Volume
  | .gce pdName readOnly => ⟨some ⟨pdName, readOnly⟩, none, none, none, none⟩
  | .aws volumeID => ⟨none, some ⟨volumeID⟩, none, none, none⟩
  | .iscsi iqn readOnly => ⟨none, none, some ⟨iqn, readOnly⟩, none, none⟩
  | .rbd monitors pool image readOnly => ⟨none, none, none, some ⟨monitors, pool, image, readOnly⟩, none⟩
  | .inert => ⟨none, none, none, none, none⟩

/-- The per-kind conflict rules in the specification's words: same-kind
identity match (with the not-both-read-only exception everywhere except
block-storage-by-id, and set intersection of monitor endpoints for the
distributed-block-image kind); different or other kinds never conflict. -/
def specKindConflict : VolumeKindDesc → VolumeKindDesc → Bool
  | .gce d1 r1, .gce d2 r2 => d1 == d2 && !(r1 && r2)
  | .aws i1, .aws i2 => i1 == i2
  | .iscsi q1 r1, .iscsi q2 r2 => q1 == q2 && !(r1 && r2)
  | .rbd m1 p1 i1 r1, .rbd m2 p2 i2 r2 =>
      decide (∃ x, x ∈ m1 ∧ x ∈ m2) && p1 == p2 && i1 == i2 && !(r1 && r2)
  | _, _ => false

/-- The claim names referenced by a list of volumes' claim-backed entries,
in order. -/
def referencedNamesOf (l : List Volume) : List String :=
  l.filterMap fun v => v.persistentVolumeClaim.map fun r => r.claimName

/-- The claim names referenced by the pod's claim-backed volumes. -/
def referencedClaimNames (pod : Pod) : List String :=
  referencedNamesOf pod.spec.volumes

/-- Some conflict-relevant volume of the pod conflicts, per the matcher,
with some volume of some pod resident on the node. -/
def DiskConflictExists (pod : Pod) (nodeInfo : NodeInfo) : Prop :=
  ∃ v ∈ pod.spec.volumes, needsRestrictionsCheck v = true ∧
    ∃ pi ∈ nodeInfo.pods, isVolumeConflict v pi.pod = true

/-!  Concrete fixtures used by witnesses and counterexamples. -/

/-- A pod with no volumes. -/
def emptyPod : Pod := ⟨"p", "default", ⟨[]⟩⟩

/-- A volume referencing claim "c". -/
def pvcVolumeC : Volume := ⟨none, none, none, none, some ⟨"c"⟩⟩

/-- A pod (as PodInfo) with one volume referencing claim "c". -/
def podInfoC : PodInfo := ⟨⟨"x", "default", ⟨[pvcVolumeC]⟩⟩⟩

/-- A node with no pods. -/
def emptyNode : NodeInfo := ⟨[]⟩

/-- A GCE volume on disk "d", read-write. -/
def gceVolumeD : Volume := ⟨some ⟨"d", false⟩, none, none, none, none⟩

/-- A pod with one GCE volume and no claims. -/
def gcePod : Pod := ⟨"g", "default", ⟨[gceVolumeD]⟩⟩

/-- A claim named "c" in the default namespace with the ReadWriteOncePod mode. -/
def rwopClaimC : PersistentVolumeClaim := ⟨"c", "default", [.readWriteOncePod]⟩

/-- A store resolving only "c", to the ReadWriteOncePod claim above. -/
def storeC : ClaimStore := fun _ n => if n = "c" then .found rwopClaimC else .notFound

/-- A pod referencing claim "c" through one volume. -/
def claimPodP : Pod := ⟨"pp", "default", ⟨[pvcVolumeC]⟩⟩

/-- Another pod referencing claim "c" through one volume. -/
def claimPodD : Pod := ⟨"dd", "default", ⟨[pvcVolumeC]⟩⟩

/-- A volume referencing claim "c1". -/
def pvcVolume1 : Volume := ⟨none, none, none, none, some ⟨"c1"⟩⟩

/-- A volume referencing claim "c2". -/
def pvcVolume2 : Volume := ⟨none, none, none, none, some ⟨"c2"⟩⟩

/-- A pod referencing claims "c1" and "c2". -/
def twoClaimPod : Pod := ⟨"q", "default", ⟨[pvcVolume1, pvcVolume2]⟩⟩

/-- A store whose lookup of "c1" fails transiently while "c2" is not found. -/
def mixedStore : ClaimStore := fun _ n => if n = "c1" then .failure "boom" else .notFound

/-- A store finding no claim at all. -/
def noneStore : ClaimStore := fun _ _ => .notFound

/-- The claim "c2" in the default namespace. -/
def claimC2 : PersistentVolumeClaim := ⟨"c2", "default", []⟩

/-!  Helper lemmas. -/

/-- haveOverlap decides the existence of a common element (the length-based
swap only changes which list seeds the probe set). -/
lemma haveOverlap_iff (a b : List String) :
    haveOverlap a b = true ↔ ∃ x, x ∈ a ∧ x ∈ b := by
  unfold haveOverlap
  split <;> simp only [List.any_eq_true, List.elem_iff] <;> tauto

/-- haveOverlap as a decide, for rewriting Bool-level goals. -/
lemma haveOverlap_eq_decide (a b : List String) :
    haveOverlap a b = decide (∃ x, x ∈ a ∧ x ∈ b) := by
  by_cases h : ∃ x, x ∈ a ∧ x ∈ b
  · simp [haveOverlap_iff, h]
  · simp only [h, decide_False]
    exact (Bool.not_eq_true _).mp (by simpa [haveOverlap_iff] using h)

/-- updateWithPod leaves the claim-name set untouched. -/
lemma updateWithPod_pvcs (s : preFilterState) (p : PodInfo) (m : Int) :
    (updateWithPod s p m).readWriteOncePodPVCs = s.readWriteOncePodPVCs := rfl

/-- satisfyVolumeConflicts is exactly the negation of DiskConflictExists. -/
lemma satisfyVolumeConflicts_eq_true_iff (pod : Pod) (nodeInfo : NodeInfo) :
    satisfyVolumeConflicts pod nodeInfo = true ↔ ¬ DiskConflictExists pod nodeInfo := by
  unfold satisfyVolumeConflicts DiskConflictExists
  rw [List.all_eq_true]
  constructor
  · intro hall hd
    rcases hd with ⟨v, hv, hneed, pi, hpi, hconf⟩
    have h0 := hall v hv
    rw [Bool.or_eq_true] at h0
    rcases h0 with h | h
    · rw [Bool.not_eq_true', hneed] at h
      cases h
    · have h2 := List.all_eq_true.mp h pi hpi
      rw [Bool.not_eq_true', hconf] at h2
      cases h2
  · intro hnd v hv
    rw [Bool.or_eq_true]
    by_cases hneed : needsRestrictionsCheck v = true
    · right
      rw [List.all_eq_true]
      intro pi hpi
      rw [Bool.not_eq_true']
      by_contra hc
      have hcv : isVolumeConflict v pi.pod = true := by
        cases hb : isVolumeConflict v pi.pod
        · exact absurd hb hc
        · rfl
      exact hnd ⟨v, hv, hneed, pi, hpi, hcv⟩
    · left
      rw [Bool.not_eq_true']
      exact Bool.not_eq_true _ |>.mp hneed

/-- Referenced names of a cons whose head is not claim-backed. -/
lemma referencedNamesOf_cons_none {v : Volume} (l : List Volume)
    (hv : v.persistentVolumeClaim = none) :
    referencedNamesOf (v :: l) = referencedNamesOf l := by
  simp [referencedNamesOf, List.filterMap_cons, hv]

/-- Referenced names of a cons whose head references claim `r`. -/
lemma referencedNamesOf_cons_some {v : Volume} {r : PersistentVolumeClaimVolumeSource}
    (l : List Volume) (hv : v.persistentVolumeClaim = some r) :
    referencedNamesOf (v :: l) = r.claimName :: referencedNamesOf l := by
  simp [referencedNamesOf, List.filterMap_cons, hv]

/-- rwopPVCsAux succeeds when every referenced lookup is found (or, when
not-found errors are ignored, merely absent), and the resulting set is the
accumulator plus the referenced names that resolve to a claim with the
ReadWriteOncePod access mode. -/
lemma rwopPVCsAux_ok (store : ClaimStore) (ns : String) (ign : Bool)
    (hstore : ∀ n c, store ns n = .found c → c.name = n) :
    ∀ (l : List Volume) (acc : Finset String),
      (∀ n ∈ referencedNamesOf l,
        (∃ c, store ns n = .found c) ∨ (ign = true ∧ store ns n = .notFound)) →
      ∃ S, rwopPVCsAux store ns ign l acc = .ok S ∧
        ∀ x, x ∈ S ↔ x ∈ acc ∨ (x ∈ referencedNamesOf l ∧
          ∃ c, store ns x = .found c ∧
            containsAccessMode c.accessModes .readWriteOncePod = true)
  | [], acc, _ => ⟨acc, rfl, by simp [referencedNamesOf]⟩
  | v :: rest, acc, hok => by
    cases hv : v.persistentVolumeClaim with
    | none =>
      have heq := referencedNamesOf_cons_none rest hv
      obtain ⟨S, hS, hmem⟩ := rwopPVCsAux_ok store ns ign hstore rest acc
        (fun n hn => hok n (by rw [heq]; exact hn))
      refine ⟨S, ?_, ?_⟩
      · simp only [rwopPVCsAux, hv]
        exact hS
      · intro x
        rw [hmem x, heq]
    | some r =>
      have heq := referencedNamesOf_cons_some rest hv
      have hokrest : ∀ n ∈ referencedNamesOf rest,
          (∃ c, store ns n = .found c) ∨ (ign = true ∧ store ns n = .notFound) :=
        fun n hn => hok n (by rw [heq]; exact List.mem_cons_of_mem _ hn)
      rcases hok r.claimName (by rw [heq]; exact List.mem_cons_self _ _) with ⟨c, hc⟩ | ⟨hign, hnf⟩
      · have hname : c.name = r.claimName := hstore _ _ hc
        by_cases hm : containsAccessMode c.accessModes .readWriteOncePod = true
        · obtain ⟨S, hS, hmem⟩ :=
            rwopPVCsAux_ok store ns ign hstore rest (insert c.name acc) hokrest
          refine ⟨S, ?_, ?_⟩
          · have hstep : rwopPVCsAux store ns ign (v :: rest) acc =
                rwopPVCsAux store ns ign rest (insert c.name acc) := by
              simp only [rwopPVCsAux, hv, hc]
              rw [if_pos hm]
            rw [hstep]
            exact hS
          · intro x
            rw [hmem x, Finset.mem_insert, hname, heq]
            have hcondr : ∃ c', store ns r.claimName = .found c' ∧
                containsAccessMode c'.accessModes .readWriteOncePod = true := ⟨c, hc, hm⟩
            by_cases hx : x = r.claimName
            · subst hx
              simp [List.mem_cons, hcondr]
            · simp [hx, List.mem_cons]
        · obtain ⟨S, hS, hmem⟩ := rwopPVCsAux_ok store ns ign hstore rest acc hokrest
          refine ⟨S, ?_, ?_⟩
          · have hstep : rwopPVCsAux store ns ign (v :: rest) acc =
                rwopPVCsAux store ns ign rest acc := by
              simp only [rwopPVCsAux, hv, hc]
              rw [if_neg hm]
            rw [hstep]
            exact hS
          · intro x
            rw [hmem x, heq]
            have hcondr : ¬ ∃ c', store ns r.claimName = .found c' ∧
                containsAccessMode c'.accessModes .readWriteOncePod = true := by
              rintro ⟨c', hc', hm'⟩
              rw [hc] at hc'
              injection hc' with hcc
              rw [← hcc] at hm'
              exact hm hm'
            by_cases hx : x = r.claimName
            · subst hx
              simp [List.mem_cons, hcondr]
            · simp [hx, List.mem_cons]
      · obtain ⟨S, hS, hmem⟩ := rwopPVCsAux_ok store ns ign hstore rest acc hokrest
        refine ⟨S, ?_, ?_⟩
        · have hstep : rwopPVCsAux store ns ign (v :: rest) acc =
              rwopPVCsAux store ns ign rest acc := by
            simp only [rwopPVCsAux, hv, hnf]
            rw [if_pos hign]
          rw [hstep]
          exact hS
        · intro x
          rw [hmem x, heq]
          have hcondr : ¬ ∃ c', store ns r.claimName = .found c' ∧
              containsAccessMode c'.accessModes .readWriteOncePod = true := by
            rintro ⟨c', hc', _⟩
            rw [hnf] at hc'
            simp at hc'
          by_cases hx : x = r.claimName
          · subst hx
            simp [List.mem_cons, hcondr]
          · simp [hx, List.mem_cons]

/-- In strict mode a referenced claim that does not resolve makes
rwopPVCsAux fail. -/
lemma rwopPVCsAux_strict_error (store : ClaimStore) (ns : String) :
    ∀ (l : List Volume) (acc : Finset String),
      (∃ n ∈ referencedNamesOf l, ∀ c, store ns n ≠ .found c) →
      ∃ e, rwopPVCsAux store ns false l acc = .error e
  | [], _, h => by simp [referencedNamesOf] at h
  | v :: rest, acc, h => by
    cases hv : v.persistentVolumeClaim with
    | none =>
      rw [referencedNamesOf_cons_none rest hv] at h
      obtain ⟨e, he⟩ := rwopPVCsAux_strict_error store ns rest acc h
      refine ⟨e, ?_⟩
      simp only [rwopPVCsAux, hv]
      exact he
    | some r =>
      rw [referencedNamesOf_cons_some rest hv] at h
      cases hs : store ns r.claimName with
      | found c =>
        have hrest : ∃ n ∈ referencedNamesOf rest, ∀ c, store ns n ≠ .found c := by
          rcases h with ⟨n, hn, hnf⟩
          rcases List.mem_cons.mp hn with rfl | hn'
          · exact absurd hs (hnf c)
          · exact ⟨n, hn', hnf⟩
        by_cases hm : containsAccessMode c.accessModes .readWriteOncePod = true
        · obtain ⟨e, he⟩ := rwopPVCsAux_strict_error store ns rest (insert c.name acc) hrest
          refine ⟨e, ?_⟩
          simp only [rwopPVCsAux, hv, hs]
          rw [if_pos hm]
          exact he
        · obtain ⟨e, he⟩ := rwopPVCsAux_strict_error store ns rest acc hrest
          refine ⟨e, ?_⟩
          simp only [rwopPVCsAux, hv, hs]
          rw [if_neg hm]
          exact he
      | notFound =>
        refine ⟨.notFound ns r.claimName, ?_⟩
        simp only [rwopPVCsAux, hv, hs]
        rw [if_neg Bool.false_ne_true]
      | failure m =>
        refine ⟨.failure m, ?_⟩
        simp only [rwopPVCsAux, hv, hs]

/-- Even when not-found errors are ignored, a transient failure on a
referenced claim makes rwopPVCsAux fail with that kind of error. -/
lemma rwopPVCsAux_ignore_failure (store : ClaimStore) (ns : String) :
    ∀ (l : List Volume) (acc : Finset String),
      (∃ n ∈ referencedNamesOf l, ∃ m, store ns n = .failure m) →
      ∃ m, rwopPVCsAux store ns true l acc = .error (.failure m)
  | [], _, h => by simp [referencedNamesOf] at h
  | v :: rest, acc, h => by
    cases hv : v.persistentVolumeClaim with
    | none =>
      rw [referencedNamesOf_cons_none rest hv] at h
      obtain ⟨m, hm⟩ := rwopPVCsAux_ignore_failure store ns rest acc h
      refine ⟨m, ?_⟩
      simp only [rwopPVCsAux, hv]
      exact hm
    | some r =>
      rw [referencedNamesOf_cons_some rest hv] at h
      cases hs : store ns r.claimName with
      | found c =>
        have hrest : ∃ n ∈ referencedNamesOf rest, ∃ m, store ns n = .failure m := by
          rcases h with ⟨n, hn, m, hf⟩
          rcases List.mem_cons.mp hn with rfl | hn'
          · rw [hs] at hf
            simp at hf
          · exact ⟨n, hn', m, hf⟩
        by_cases hacc : containsAccessMode c.accessModes .readWriteOncePod = true
        · obtain ⟨m, hme⟩ := rwopPVCsAux_ignore_failure store ns rest (insert c.name acc) hrest
          refine ⟨m, ?_⟩
          simp only [rwopPVCsAux, hv, hs]
          rw [if_pos hacc]
          exact hme
        · obtain ⟨m, hme⟩ := rwopPVCsAux_ignore_failure store ns rest acc hrest
          refine ⟨m, ?_⟩
          simp only [rwopPVCsAux, hv, hs]
          rw [if_neg hacc]
          exact hme
      | notFound =>
        have hrest : ∃ n ∈ referencedNamesOf rest, ∃ m, store ns n = .failure m := by
          rcases h with ⟨n, hn, m, hf⟩
          rcases List.mem_cons.mp hn with rfl | hn'
          · rw [hs] at hf
            simp at hf
          · exact ⟨n, hn', m, hf⟩
        obtain ⟨m, hme⟩ := rwopPVCsAux_ignore_failure store ns rest acc hrest
        refine ⟨m, ?_⟩
        simp only [rwopPVCsAux, hv, hs]
        rw [if_pos trivial]
        exact hme
      | failure m =>
        refine ⟨m, ?_⟩
        simp only [rwopPVCsAux, hv, hs]

/-- collectReferencedPVCs succeeds when every referenced lookup is found,
and the resulting set is the accumulator plus every referenced name. -/
lemma collectReferencedPVCs_ok (store : ClaimStore) (ns : String)
    (hstore : ∀ n c, store ns n = .found c → c.name = n) :
    ∀ (l : List Volume) (acc : Finset String),
      (∀ n ∈ referencedNamesOf l, ∃ c, store ns n = .found c) →
      ∃ S, collectReferencedPVCs store ns l acc = .ok S ∧
        ∀ x, x ∈ S ↔ x ∈ acc ∨ x ∈ referencedNamesOf l
  | [], acc, _ => ⟨acc, rfl, by simp [referencedNamesOf]⟩
  | v :: rest, acc, hok => by
    cases hv : v.persistentVolumeClaim with
    | none =>
      have heq := referencedNamesOf_cons_none rest hv
      obtain ⟨S, hS, hmem⟩ := collectReferencedPVCs_ok store ns hstore rest acc
        (fun n hn => hok n (by rw [heq]; exact hn))
      refine ⟨S, ?_, ?_⟩
      · simp only [collectReferencedPVCs, hv]
        exact hS
      · intro x
        rw [hmem x, heq]
    | some r =>
      have heq := referencedNamesOf_cons_some rest hv
      obtain ⟨c, hc⟩ := hok r.claimName (by rw [heq]; exact List.mem_cons_self _ _)
      have hname : c.name = r.claimName := hstore _ _ hc
      obtain ⟨S, hS, hmem⟩ := collectReferencedPVCs_ok store ns hstore rest (insert c.name acc)
        (fun n hn => hok n (by rw [heq]; exact List.mem_cons_of_mem _ hn))
      refine ⟨S, ?_, ?_⟩
      · simp only [collectReferencedPVCs, hv, hc]
        exact hS
      · intro x
        rw [hmem x, Finset.mem_insert, hname, heq, List.mem_cons]
        tauto

/-- A referenced claim that is not found, with no transient failures among
the referenced claims, makes collectReferencedPVCs fail with a not-found
error. -/
lemma collectReferencedPVCs_notFound (store : ClaimStore) (ns : String) :
    ∀ (l : List Volume) (acc : Finset String),
      (∃ n ∈ referencedNamesOf l, store ns n = .notFound) →
      (∀ n ∈ referencedNamesOf l, ∀ m, store ns n ≠ .failure m) →
      ∃ n', collectReferencedPVCs store ns l acc = .error (.notFound ns n')
  | [], _, h, _ => by simp [referencedNamesOf] at h
  | v :: rest, acc, h, hnof => by
    cases hv : v.persistentVolumeClaim with
    | none =>
      rw [referencedNamesOf_cons_none rest hv] at h hnof
      obtain ⟨n', hn'⟩ := collectReferencedPVCs_notFound store ns rest acc h hnof
      refine ⟨n', ?_⟩
      simp only [collectReferencedPVCs, hv]
      exact hn'
    | some r =>
      rw [referencedNamesOf_cons_some rest hv] at h hnof
      have hnofrest : ∀ n ∈ referencedNamesOf rest, ∀ m, store ns n ≠ .failure m :=
        fun n hn => hnof n (List.mem_cons_of_mem _ hn)
      cases hs : store ns r.claimName with
      | found c =>
        have hrest : ∃ n ∈ referencedNamesOf rest, store ns n = .notFound := by
          rcases h with ⟨n, hn, hf⟩
          rcases List.mem_cons.mp hn with rfl | hn'
          · rw [hs] at hf
            simp at hf
          · exact ⟨n, hn', hf⟩
        obtain ⟨n', hn'⟩ :=
          collectReferencedPVCs_notFound store ns rest (insert c.name acc) hrest hnofrest
        refine ⟨n', ?_⟩
        simp only [collectReferencedPVCs, hv, hs]
        exact hn'
      | notFound =>
        refine ⟨r.claimName, ?_⟩
        simp only [collectReferencedPVCs, hv, hs]
      | failure m =>
        exact absurd hs (hnof r.claimName (List.mem_cons_self _ _) m)

/-!  Claim theorems. -/

/-- C1 counterexample: with no disk conflict and no cache entry written,
Filter returns an error status, not a pass — the claimed automatic pass
for a missing entry fails at this input. -/
theorem Filter_missing_state_counterexample :
    satisfyVolumeConflicts emptyPod emptyNode = true ∧
      Filter none emptyPod emptyNode ≠ Status.success := by
  decide

/-- C1 amended: Filter rejects with the disk-conflict reason exactly when a
conflict-relevant volume of the pod conflicts with a resident pod's volume;
otherwise, with a computed entry present, it rejects with the
exclusive-claim reason exactly when conflictingPVCRefCount > 0 and accepts
otherwise; a present-but-nil entry passes the claim check automatically;
but an absent entry makes Filter return an error status (state-missing is
fatal), not a pass. -/
theorem Filter_characterization (cs : CycleState) (pod : Pod) (nodeInfo : NodeInfo) :
    (Filter cs pod nodeInfo = .unschedulable ErrReasonDiskConflict ↔
      DiskConflictExists pod nodeInfo) ∧
    (¬ DiskConflictExists pod nodeInfo → ∀ s, cs = some (some s) →
      (Filter cs pod nodeInfo = .unschedulable ErrReasonReadWriteOncePodConflict ↔
        0 < s.conflictingPVCRefCount)) ∧
    (¬ DiskConflictExists pod nodeInfo → ∀ s, cs = some (some s) →
      ¬ 0 < s.conflictingPVCRefCount → Filter cs pod nodeInfo = .success) ∧
    (¬ DiskConflictExists pod nodeInfo → cs = some none →
      Filter cs pod nodeInfo = .success) ∧
    (¬ DiskConflictExists pod nodeInfo → cs = none →
      Filter cs pod nodeInfo = .error ("cannot read " ++ preFilterStateKey ++ " from cycleState")) := by
  have hne : ErrReasonDiskConflict ≠ ErrReasonReadWriteOncePodConflict := by decide
  by_cases hsat : satisfyVolumeConflicts pod nodeInfo = true
  · have hnd : ¬ DiskConflictExists pod nodeInfo :=
      (satisfyVolumeConflicts_eq_true_iff pod nodeInfo).mp hsat
    refine ⟨?_, ?_, ?_, ?_, ?_⟩
    · rw [iff_false_intro hnd]
      rcases cs with _ | (_ | s)
      · simp [Filter, hsat, getPreFilterState]
      · simp [Filter, hsat, getPreFilterState, satisfyReadWriteOncePod]
      · by_cases hc : 0 < s.conflictingPVCRefCount
        · simp [Filter, hsat, getPreFilterState, satisfyReadWriteOncePod, hc, hne, Ne.symm hne]
        · simp [Filter, hsat, getPreFilterState, satisfyReadWriteOncePod, hc]
    · rintro _ s rfl
      by_cases hc : 0 < s.conflictingPVCRefCount
      · simp [Filter, hsat, getPreFilterState, satisfyReadWriteOncePod, hc]
      · simp [Filter, hsat, getPreFilterState, satisfyReadWriteOncePod, hc]
    · rintro _ s rfl hc
      simp [Filter, hsat, getPreFilterState, satisfyReadWriteOncePod, hc]
    · rintro _ rfl
      simp [Filter, hsat, getPreFilterState, satisfyReadWriteOncePod]
    · rintro _ rfl
      simp [Filter, hsat, getPreFilterState]
  · have hd : DiskConflictExists pod nodeInfo := by
      by_contra hnd
      exact hsat ((satisfyVolumeConflicts_eq_true_iff pod nodeInfo).mpr hnd)
    have hfalse : satisfyVolumeConflicts pod nodeInfo = false :=
      Bool.not_eq_true _ |>.mp hsat
    refine ⟨?_, fun hnd => absurd hd hnd, fun hnd => absurd hd hnd,
      fun hnd => absurd hd hnd, fun hnd => absurd hd hnd⟩
    rw [iff_true_intro hd]
    simp [Filter, hfalse]

/-- C1 witness: a concrete entry with counter 1 and no disk conflict makes
Filter reject with the exclusive-claim reason. -/
theorem Filter_characterization_witness :
    ¬ DiskConflictExists emptyPod emptyNode ∧
      Filter (some (some ⟨{"c"}, 1⟩)) emptyPod emptyNode =
        Status.unschedulable ErrReasonReadWriteOncePodConflict := by
  have hnd : ¬ DiskConflictExists emptyPod emptyNode := by
    simp [DiskConflictExists, emptyPod]
  refine ⟨hnd, ?_⟩
  exact ((Filter_characterization (some (some ⟨{"c"}, 1⟩)) emptyPod emptyNode).2.1 hnd
    ⟨{"c"}, 1⟩ rfl).mpr (by norm_num)

/-- C5: provided the pod's ReadWriteOncePod claims resolve, PreFilter
returns Skip and writes nothing exactly when the pod has no volume of the
four conflict-relevant kinds and the computed conflictingPVCRefCount is
zero; otherwise it writes the computed entry and returns success. -/
theorem PreFilter_skip_characterization (store : ClaimStore) (index : UsageIndex) (pod : Pod)
    (pvcs : Finset String) (h : readWriteOncePodPVCsForPod store pod false = .ok pvcs) :
    (PreFilter store index pod = (none, .skip) ↔
      (∀ v ∈ pod.spec.volumes, needsRestrictionsCheck v = false) ∧
        (calPreFilterState index pod pvcs).conflictingPVCRefCount = 0) ∧
    (¬ ((∀ v ∈ pod.spec.volumes, needsRestrictionsCheck v = false) ∧
          (calPreFilterState index pod pvcs).conflictingPVCRefCount = 0) →
      PreFilter store index pod = (some (calPreFilterState index pod pvcs), .success)) := by
  have hany : (pod.spec.volumes.any needsRestrictionsCheck = false) ↔
      ∀ v ∈ pod.spec.volumes, needsRestrictionsCheck v = false := by
    rw [← Bool.not_eq_true, List.any_eq_true]
    constructor
    · intro hno v hv
      cases hb : needsRestrictionsCheck v
      · rfl
      · exact absurd ⟨v, hv, hb⟩ hno
    · rintro hall ⟨v, hv, hb⟩
      rw [hall v hv] at hb
      cases hb
  have hmain : PreFilter store index pod =
      (if (!(pod.spec.volumes.any needsRestrictionsCheck) &&
            (calPreFilterState index pod pvcs).conflictingPVCRefCount == 0) = true
       then (none, Status.skip)
       else (some (calPreFilterState index pod pvcs), Status.success)) := by
    unfold PreFilter
    rw [h]
  constructor
  · rw [hmain]
    by_cases h1 : pod.spec.volumes.any needsRestrictionsCheck = false
    · by_cases h2 : (calPreFilterState index pod pvcs).conflictingPVCRefCount = 0
      · rw [if_pos (by simp [h1, h2])]
        exact iff_of_true rfl ⟨hany.mp h1, h2⟩
      · rw [if_neg (by simp [h1, h2])]
        exact iff_of_false (by simp) fun hx => h2 hx.2
    · have h1' : pod.spec.volumes.any needsRestrictionsCheck = true := by
        cases hb : pod.spec.volumes.any needsRestrictionsCheck
        · exact absurd hb h1
        · rfl
      rw [if_neg (by simp [h1'])]
      exact iff_of_false (by simp) fun hx => h1 (hany.mpr hx.1)
  · intro hnot
    have hcmpf : ¬ ((!(pod.spec.volumes.any needsRestrictionsCheck) &&
        (calPreFilterState index pod pvcs).conflictingPVCRefCount == 0) = true) := by
      intro hcmp
      rw [Bool.and_eq_true, Bool.not_eq_true'] at hcmp
      exact hnot ⟨hany.mp hcmp.1, by simpa using hcmp.2⟩
    rw [hmain, if_neg hcmpf]

/-- C5 witness: a pod with a GCE volume and no claims resolves to the empty
claim set and PreFilter writes its computed entry. -/
theorem PreFilter_skip_characterization_witness :
    readWriteOncePodPVCsForPod (fun _ _ => .notFound) gcePod false = .ok ∅ ∧
      PreFilter (fun _ _ => .notFound) (fun _ => false) gcePod =
        (some (calPreFilterState (fun _ => false) gcePod ∅), .success) := by
  have h : readWriteOncePodPVCsForPod (fun _ _ => .notFound) gcePod false = .ok ∅ := rfl
  refine ⟨h, ?_⟩
  refine (PreFilter_skip_characterization (fun _ _ => .notFound) (fun _ => false) gcePod ∅ h).2 ?_
  intro hx
  have := hx.1 gceVolumeD (by simp [gcePod])
  simp [needsRestrictionsCheck, gceVolumeD] at this

/-- C2: for every pair of volume descriptors the Conflict Matcher reports a
conflict exactly by the per-kind rules: GCE PD on equal disk names unless
both read-only; AWS EBS on equal volume ids regardless of read-only; ISCSI
on equal IQNs unless both read-only; RBD on intersecting monitor lists,
equal pools, equal images, unless both read-only; different or other kinds
never conflict. -/
theorem volumePairConflict_per_kind_rules (k1 k2 : VolumeKindDesc) :
    volumePairConflict k1.toVolume k2.toVolume = specKindConflict k1 k2 := by
  cases k1 <;> cases k2 <;>
    simp [VolumeKindDesc.toVolume, volumePairConflict, gcePairConflict, awsPairConflict,
      iscsiPairConflict, rbdPairConflict, specKindConflict, haveOverlap_eq_decide]

/-- C4: applying updateWithPod with multiplier +1 and then -1 for the same
pod returns conflictingPVCRefCount exactly to its prior value. -/
theorem updateWithPod_add_then_remove (s : preFilterState) (X : PodInfo) :
    (updateWithPod (updateWithPod s X 1) X (-1)).conflictingPVCRefCount =
      s.conflictingPVCRefCount := by
  simp [updateWithPod, conflictingPVCRefCountForPod, pvcRefCountForPod]

/-- C3 counterexample: an entry created by calPreFilterState (claim set
{"c"}, usage index reporting no use, so counter 0) on which a single
RemovePod of a pod referencing "c" drives conflictingPVCRefCount to -1,
violating the claimed invariant 0 ≤ count. -/
theorem calPreFilterState_invariant_counterexample :
    (RemovePod (calPreFilterState (fun _ => false) emptyPod {"c"}) podInfoC).conflictingPVCRefCount < 0 := by
  decide

/-- C3 amended: at creation, for every entry produced by calPreFilterState,
0 ≤ conflictingPVCRefCount ≤ |exclusiveClaims|; the invariant is not
preserved by arbitrary updateWithPod sequences. -/
theorem calPreFilterState_count_bounds (index : UsageIndex) (pod : Pod) (pvcs : Finset String) :
    0 ≤ (calPreFilterState index pod pvcs).conflictingPVCRefCount ∧
      (calPreFilterState index pod pvcs).conflictingPVCRefCount ≤ (pvcs.card : Int) := by
  refine ⟨by simp [calPreFilterState], ?_⟩
  simp only [calPreFilterState]
  exact_mod_cast Finset.card_filter_le _ _

/-- C9: Clone copies the counter by value into a fresh cell and shares the
claim-name set; afterwards updateWithPod on the clone leaves the original's
counter unchanged, and updateWithPod on the original leaves the clone's
counter unchanged. -/
theorem Clone_independent_counter (h : Heap) (r : StateRef) (hv : r.valid h)
    (X Y : PodInfo) (m m' : Int) :
    ((Clone h r).2).readWriteOncePodPVCs = r.readWriteOncePodPVCs ∧
    ((Clone h r).2).count (Clone h r).1 = r.count h ∧
    r.count (Clone h r).1 = r.count h ∧
    r.count (updateRefWithPod (Clone h r).1 (Clone h r).2 X m) = r.count h ∧
    ((Clone h r).2).count (updateRefWithPod (Clone h r).1 r Y m') = r.count h := by
  have hne : r.cell ≠ h.nextId := Nat.ne_of_lt hv
  refine ⟨rfl, ?_, ?_, ?_, ?_⟩ <;>
    simp [Clone, Heap.alloc, StateRef.count, Heap.read, Heap.write, updateRefWithPod, hne,
      Ne.symm hne]

/-- C9 witness: the frame property at a concrete one-cell heap. -/
theorem Clone_independent_counter_witness :
    StateRef.valid ⟨fun _ => 0, 1⟩ ⟨∅, 0⟩ ∧
    ((Clone ⟨fun _ => 0, 1⟩ ⟨∅, 0⟩).2).readWriteOncePodPVCs = (∅ : Finset String) ∧
    ((Clone ⟨fun _ => 0, 1⟩ ⟨∅, 0⟩).2).count (Clone ⟨fun _ => 0, 1⟩ ⟨∅, 0⟩).1 =
      StateRef.count ⟨fun _ => 0, 1⟩ ⟨∅, 0⟩ ∧
    StateRef.count (Clone ⟨fun _ => 0, 1⟩ ⟨∅, 0⟩).1 ⟨∅, 0⟩ =
      StateRef.count ⟨fun _ => 0, 1⟩ ⟨∅, 0⟩ ∧
    StateRef.count
        (updateRefWithPod (Clone ⟨fun _ => 0, 1⟩ ⟨∅, 0⟩).1 (Clone ⟨fun _ => 0, 1⟩ ⟨∅, 0⟩).2 podInfoC 1)
        ⟨∅, 0⟩ = StateRef.count ⟨fun _ => 0, 1⟩ ⟨∅, 0⟩ ∧
    ((Clone ⟨fun _ => 0, 1⟩ ⟨∅, 0⟩).2).count
        (updateRefWithPod (Clone ⟨fun _ => 0, 1⟩ ⟨∅, 0⟩).1 ⟨∅, 0⟩ podInfoC 1) =
      StateRef.count ⟨fun _ => 0, 1⟩ ⟨∅, 0⟩ := by
  have hv : StateRef.valid ⟨fun _ => 0, 1⟩ (⟨∅, 0⟩ : StateRef) := Nat.zero_lt_one
  obtain ⟨h1, h2, h3, h4, h5⟩ :=
    Clone_independent_counter ⟨fun _ => 0, 1⟩ ⟨∅, 0⟩ hv podInfoC podInfoC 1 1
  exact ⟨hv, h1, h2, h3, h4, h5⟩

/-- C6: the exclusive-claim resolver returns exactly the referenced claim
names whose resolved claim's access modes contain ReadWriteOncePod; in
strict mode any failing lookup (including not-found) yields an error; in
best-effort mode a not-found claim is silently skipped while a transient
failure is still returned. -/
theorem readWriteOncePodPVCsForPod_characterization (store : ClaimStore) (pod : Pod)
    (hstore : ∀ n c, store pod.ns n = .found c → c.name = n) :
    (∀ ign : Bool,
      (∀ n ∈ referencedClaimNames pod,
        (∃ c, store pod.ns n = .found c) ∨ (ign = true ∧ store pod.ns n = .notFound)) →
      ∃ S, readWriteOncePodPVCsForPod store pod ign = .ok S ∧
        ∀ x, x ∈ S ↔ x ∈ referencedClaimNames pod ∧
          ∃ c, store pod.ns x = .found c ∧
            containsAccessMode c.accessModes .readWriteOncePod = true) ∧
    ((∃ n ∈ referencedClaimNames pod, ∀ c, store pod.ns n ≠ .found c) →
      ∃ e, readWriteOncePodPVCsForPod store pod false = .error e) ∧
    ((∃ n ∈ referencedClaimNames pod, ∃ m, store pod.ns n = .failure m) →
      ∃ m, readWriteOncePodPVCsForPod store pod true = .error (.failure m)) := by
  refine ⟨?_, ?_, ?_⟩
  · intro ign hall
    obtain ⟨S, hS, hmem⟩ := rwopPVCsAux_ok store pod.ns ign hstore pod.spec.volumes ∅ hall
    refine ⟨S, hS, ?_⟩
    intro x
    rw [hmem x]
    simp [referencedClaimNames]
  · intro hex
    exact rwopPVCsAux_strict_error store pod.ns pod.spec.volumes ∅ hex
  · intro hex
    exact rwopPVCsAux_ignore_failure store pod.ns pod.spec.volumes ∅ hex

/-- C6 witness: a pod referencing the ReadWriteOncePod claim "c" resolves,
strictly, to a set characterized by membership of "c". -/
theorem readWriteOncePodPVCsForPod_characterization_witness :
    (∀ n c, storeC claimPodP.ns n = .found c → c.name = n) ∧
    (∀ n ∈ referencedClaimNames claimPodP,
      (∃ c, storeC claimPodP.ns n = .found c) ∨
        (false = true ∧ storeC claimPodP.ns n = .notFound)) ∧
    ∃ S, readWriteOncePodPVCsForPod storeC claimPodP false = .ok S ∧
      ∀ x, x ∈ S ↔ x ∈ referencedClaimNames claimPodP ∧
        ∃ c, storeC claimPodP.ns x = .found c ∧
          containsAccessMode c.accessModes .readWriteOncePod = true := by
  have hst : ∀ n c, storeC claimPodP.ns n = .found c → c.name = n := by
    intro n c h
    by_cases hn : n = "c"
    · subst hn
      simp [storeC] at h
      rw [← h]
      rfl
    · simp [storeC, hn] at h
  have hall : ∀ n ∈ referencedClaimNames claimPodP,
      (∃ c, storeC claimPodP.ns n = .found c) ∨
        (false = true ∧ storeC claimPodP.ns n = .notFound) := by
    intro n hn
    have hn' : n = "c" := by
      simpa [referencedClaimNames, referencedNamesOf, claimPodP, pvcVolumeC] using hn
    subst hn'
    exact Or.inl ⟨rwopClaimC, rfl⟩
  exact ⟨hst, hall,
    (readWriteOncePodPVCsForPod_characterization storeC claimPodP hst).1 false hall⟩

/-- C7: the pod-deletion re-queue predicate skips for a foreign namespace;
skips when strict resolution of the blocked pod's claims hits not-found;
requeues when the two resolved claim sets share a name; otherwise requeues
exactly when the blocked pod conflicts with the deleted pod's volumes on a
synthetic single-pod node, and skips otherwise. -/
theorem isSchedulableAfterPodDeleted_characterization (store : ClaimStore)
    (pod deletedPod : Pod) :
    (deletedPod.ns ≠ pod.ns →
      isSchedulableAfterPodDeleted store pod deletedPod = (.queueSkip, none)) ∧
    (∀ ns n, deletedPod.ns = pod.ns →
      readWriteOncePodPVCsForPod store pod false = .error (.notFound ns n) →
      isSchedulableAfterPodDeleted store pod deletedPod = (.queueSkip, none)) ∧
    (∀ NP DP, deletedPod.ns = pod.ns →
      readWriteOncePodPVCsForPod store pod false = .ok NP →
      readWriteOncePodPVCsForPod store deletedPod true = .ok DP →
      (((∃ pvc ∈ DP, pvc ∈ NP) →
          isSchedulableAfterPodDeleted store pod deletedPod = (.queue, none)) ∧
        ((¬ ∃ pvc ∈ DP, pvc ∈ NP) → DiskConflictExists pod (NewNodeInfo deletedPod) →
          isSchedulableAfterPodDeleted store pod deletedPod = (.queue, none)) ∧
        ((¬ ∃ pvc ∈ DP, pvc ∈ NP) → ¬ DiskConflictExists pod (NewNodeInfo deletedPod) →
          isSchedulableAfterPodDeleted store pod deletedPod = (.queueSkip, none)))) := by
  refine ⟨?_, ?_, ?_⟩
  · intro hne
    simp [isSchedulableAfterPodDeleted, bne_iff_ne, hne]
  · intro ns n heq herr
    simp [isSchedulableAfterPodDeleted, bne_iff_ne, heq, herr]
  · intro NP DP heq hNP hDP
    refine ⟨?_, ?_, ?_⟩
    · intro hsh
      simp [isSchedulableAfterPodDeleted, bne_iff_ne, heq, hNP, hDP, hsh]
    · intro hsh hdc
      have hsatf : satisfyVolumeConflicts pod (NewNodeInfo deletedPod) = false := by
        cases hb : satisfyVolumeConflicts pod (NewNodeInfo deletedPod)
        · rfl
        · exact absurd hdc ((satisfyVolumeConflicts_eq_true_iff _ _).mp hb)
      simp [isSchedulableAfterPodDeleted, bne_iff_ne, heq, hNP, hDP, hsh, hsatf]
    · intro hsh hnd
      have hsat : satisfyVolumeConflicts pod (NewNodeInfo deletedPod) = true :=
        (satisfyVolumeConflicts_eq_true_iff _ _).mpr hnd
      simp [isSchedulableAfterPodDeleted, bne_iff_ne, heq, hNP, hDP, hsh, hsat]

/-- C7 witness: deleting a pod holding the shared claim "c" requeues the
blocked pod referencing "c". -/
theorem isSchedulableAfterPodDeleted_characterization_witness :
    claimPodD.ns = claimPodP.ns ∧
    readWriteOncePodPVCsForPod storeC claimPodP false = .ok (insert "c" ∅) ∧
    readWriteOncePodPVCsForPod storeC claimPodD true = .ok (insert "c" ∅) ∧
    (∃ pvc ∈ (insert "c" ∅ : Finset String), pvc ∈ (insert "c" ∅ : Finset String)) ∧
    isSchedulableAfterPodDeleted storeC claimPodP claimPodD = (.queue, none) := by
  have hsh : ∃ pvc ∈ (insert "c" ∅ : Finset String), pvc ∈ (insert "c" ∅ : Finset String) :=
    ⟨"c", by simp, by simp⟩
  refine ⟨rfl, rfl, rfl, hsh, ?_⟩
  exact ((isSchedulableAfterPodDeleted_characterization storeC claimPodP claimPodD).2.2
    (insert "c" ∅) (insert "c" ∅) rfl rfl rfl).1 hsh

/-- C8: provided the pod's referenced claims all resolve, the claim-change
re-queue predicate requeues exactly when the event is a creation in the
pod's namespace of a claim whose name the pod references; an update to an
existing claim always skips. -/
theorem isSchedulableAfterPersistentVolumeClaimChange_characterization (store : ClaimStore)
    (pod : Pod) (oldPVC : Option PersistentVolumeClaim) (newPVC : PersistentVolumeClaim)
    (hstore : ∀ n c, store pod.ns n = .found c → c.name = n)
    (hall : ∀ n ∈ referencedClaimNames pod, ∃ c, store pod.ns n = .found c) :
    (∀ c, oldPVC = some c →
      isSchedulableAfterPersistentVolumeClaimChange store pod oldPVC newPVC =
        (.queueSkip, none)) ∧
    (isSchedulableAfterPersistentVolumeClaimChange store pod oldPVC newPVC = (.queue, none) ↔
      oldPVC = none ∧ newPVC.ns = pod.ns ∧ newPVC.name ∈ referencedClaimNames pod) := by
  obtain ⟨S, hS, hmem⟩ := collectReferencedPVCs_ok store pod.ns hstore pod.spec.volumes ∅ hall
  constructor
  · intro c hc
    simp [isSchedulableAfterPersistentVolumeClaimChange, hc]
  · cases oldPVC with
    | some c =>
      simp [isSchedulableAfterPersistentVolumeClaimChange]
    | none =>
      by_cases hns : newPVC.ns = pod.ns
      · have hmem' : newPVC.name ∈ S ↔ newPVC.name ∈ referencedClaimNames pod := by
          rw [hmem newPVC.name]
          simp [referencedClaimNames]
        by_cases hin : newPVC.name ∈ referencedClaimNames pod
        · simp [isSchedulableAfterPersistentVolumeClaimChange, bne_iff_ne, hns, hS,
            hmem'.mpr hin, hin]
        · have hout : newPVC.name ∉ S := fun hx => hin (hmem'.mp hx)
          simp [isSchedulableAfterPersistentVolumeClaimChange, bne_iff_ne, hns, hS, hout, hin]
      · simp [isSchedulableAfterPersistentVolumeClaimChange, bne_iff_ne, hns]

/-- C8 witness: creating the referenced claim "c" requeues, an update to it
skips. -/
theorem isSchedulableAfterPersistentVolumeClaimChange_characterization_witness :
    (∀ n c, storeC claimPodP.ns n = .found c → c.name = n) ∧
    (∀ n ∈ referencedClaimNames claimPodP, ∃ c, storeC claimPodP.ns n = .found c) ∧
    isSchedulableAfterPersistentVolumeClaimChange storeC claimPodP none rwopClaimC =
      (.queue, none) ∧
    isSchedulableAfterPersistentVolumeClaimChange storeC claimPodP (some rwopClaimC) rwopClaimC =
      (.queueSkip, none) := by
  have hst : ∀ n c, storeC claimPodP.ns n = .found c → c.name = n := by
    intro n c h
    by_cases hn : n = "c"
    · subst hn
      simp [storeC] at h
      rw [← h]
      rfl
    · simp [storeC, hn] at h
  have hall : ∀ n ∈ referencedClaimNames claimPodP, ∃ c, storeC claimPodP.ns n = .found c := by
    intro n hn
    have hn' : n = "c" := by
      simpa [referencedClaimNames, referencedNamesOf, claimPodP, pvcVolumeC] using hn
    subst hn'
    exact ⟨rwopClaimC, rfl⟩
  refine ⟨hst, hall, ?_, ?_⟩
  · exact (isSchedulableAfterPersistentVolumeClaimChange_characterization storeC claimPodP
      none rwopClaimC hst hall).2.mpr
      ⟨rfl, rfl, by simp [referencedClaimNames, referencedNamesOf, claimPodP, pvcVolumeC, rwopClaimC]⟩
  · exact (isSchedulableAfterPersistentVolumeClaimChange_characterization storeC claimPodP
      (some rwopClaimC) rwopClaimC hst hall).1 rwopClaimC rfl

/-- C10 counterexample: a referenced claim is not found ("c2"), yet the
predicate returns Queue with an error because an earlier referenced
claim's lookup fails transiently — not the claimed skip-without-error. -/
theorem pvcChange_notFound_counterexample :
    mixedStore twoClaimPod.ns "c2" = .notFound ∧
    "c2" ∈ referencedClaimNames twoClaimPod ∧
    claimC2.ns = twoClaimPod.ns ∧
    isSchedulableAfterPersistentVolumeClaimChange mixedStore twoClaimPod none claimC2 ≠
      (.queueSkip, none) := by
  refine ⟨rfl, by decide, rfl, ?_⟩
  decide

/-- C10 amended: on a creation event in the pod's namespace, if some
referenced claim lookup returns not-found and no referenced lookup fails
transiently, the predicate returns skip without error, even when the
created claim's name is among the referenced names. -/
theorem pvcChange_notFound_skip (store : ClaimStore) (pod : Pod)
    (newPVC : PersistentVolumeClaim) (hns : newPVC.ns = pod.ns)
    (hnf : ∃ n ∈ referencedClaimNames pod, store pod.ns n = .notFound)
    (hnofail : ∀ n ∈ referencedClaimNames pod, ∀ m, store pod.ns n ≠ .failure m) :
    isSchedulableAfterPersistentVolumeClaimChange store pod none newPVC =
      (.queueSkip, none) := by
  obtain ⟨n', hcol⟩ :=
    collectReferencedPVCs_notFound store pod.ns pod.spec.volumes ∅ hnf hnofail
  simp [isSchedulableAfterPersistentVolumeClaimChange, bne_iff_ne, hns, hcol]

/-- C10 witness: with every claim missing, creating "c2" (referenced by the
pod) still skips without error. -/
theorem pvcChange_notFound_skip_witness :
    claimC2.ns = twoClaimPod.ns ∧
    (∃ n ∈ referencedClaimNames twoClaimPod, noneStore twoClaimPod.ns n = .notFound) ∧
    (∀ n ∈ referencedClaimNames twoClaimPod, ∀ m, noneStore twoClaimPod.ns n ≠ .failure m) ∧
    isSchedulableAfterPersistentVolumeClaimChange noneStore twoClaimPod none claimC2 =
      (.queueSkip, none) := by
  have hnf : ∃ n ∈ referencedClaimNames twoClaimPod, noneStore twoClaimPod.ns n = .notFound :=
    ⟨"c1", by decide, rfl⟩
  have hnofail : ∀ n ∈ referencedClaimNames twoClaimPod, ∀ m,
      noneStore twoClaimPod.ns n ≠ .failure m := by
    intro n _ m h
    simp [noneStore] at h
  exact ⟨rfl, hnf, hnofail, pvcChange_notFound_skip noneStore twoClaimPod claimC2 rfl hnf hnofail⟩

end VolumeRestrictions
